import Mathlib

/-!
Verification of the tech-health frontend logic: a shallow embedding of the
GitHub-URL parser, the `startAnalysis` workflow, the authentication context
(`login` / `logout`), the dashboard statistics computation, the report
template's field bindings, and the progress-bar update, each translated from
the repository's JavaScript sources.
-/

/-! ## GitHub URL parsing (`parseGitHubUrl`, RepositoryAnalysis component)

The source matches `url` against the regex `github\.com\/([^/]+)\/([^/]+)/`
(first match, scanning left to right) and returns
`{owner: match[1], repo: match[2].replace(".git", "")}`, or `null` when the
regex does not match.  JavaScript `String.replace` with a string pattern
removes only the first occurrence. -/

/-- The literal part `github\.com\/` of the regex. -/
def ghMarker : List Char := ['g', 'i', 't', 'h', 'u', 'b', '.', 'c', 'o', 'm', '/']

/-- The literal string pattern of `.replace(".git", "")`. -/
def dotGit : List Char := ['.', 'g', 'i', 't']

/-- If `pat` is a prefix of `l`, return the remaining suffix, else `none`. -/
def dropMarker : List Char → List Char → Option (List Char)
  | [], l => some l
  | _ :: _, [] => none
  | p :: ps, c :: cs => if p = c then dropMarker ps cs else none

/-- JavaScript `s.replace(pat, "")` for a string pattern: remove the first
occurrence of `pat`, leave `s` unchanged when `pat` does not occur. -/
def removeFirst (pat : List Char) : List Char → List Char
  | [] => []
  | c :: rest =>
    match dropMarker pat (c :: rest) with
    | some suf => suf
    | none => c :: removeFirst pat rest

/-- Matching `([^/]+)\/([^/]+)` against the text right after the literal
`github.com/`: a maximal nonempty run of non-slash characters, a slash, and a
further nonempty run of non-slash characters. -/
def matchTail (t : List Char) : Option (List Char × List Char) :=
  if t.dropWhile (fun c => c != '/') = [] then none
  else
    if t.takeWhile (fun c => c != '/') = []
        ∨ (t.dropWhile (fun c => c != '/')).tail.takeWhile (fun c => c != '/') = []
    then none
    else some (t.takeWhile (fun c => c != '/'),
      (t.dropWhile (fun c => c != '/')).tail.takeWhile (fun c => c != '/'))

/-- Left-to-right scan of the regex engine: at each start position try the
literal `github.com/` followed by `matchTail`; on failure resume at the next
position.  Returns the first full match. -/
def scanGithub : List Char → Option (List Char × List Char)
  | [] => none
  | c :: rest =>
    match dropMarker ghMarker (c :: rest) with
    | some tail =>
      match matchTail tail with
      | some r => some r
      | none => scanGithub rest
    | none => scanGithub rest

/-- `parseGitHubUrl` from the RepositoryAnalysis component: first regex match,
owner returned unchanged, repo with its first `".git"` occurrence removed;
`none` when the regex does not match. -/
def parseGitHubUrl (url : String) : Option (String × String) :=
  match scanGithub url.toList with
  | some (o, r) => some (String.mk o, String.mk (removeFirst dotGit r))
  | none => none

example : parseGitHubUrl ("https://github.com/owner/repo") = some ("owner", "repo") := by decide
example : parseGitHubUrl ("https://github.com/owner/repo.git") = some ("owner", "repo") := by decide
example : parseGitHubUrl ("https://github.com/o/my.github.io") = some ("o", "myhub.io") := by decide
example : parseGitHubUrl ("not a url") = none := by decide

/-! ## The `startAnalysis` workflow (RepositoryAnalysis component)

`startAnalysis` clears the error, resolves the target repository (selected
repository split on `/`, else `parseGitHubUrl` on the entered URL), rejects a
missing parse or an empty access token before any network call, issues a single
POST to `/api/report/generate`, and on its outcome either sets progress to 100
and navigates to the reports page, or surfaces the response's `detail` (with a
generic fallback), and resets progress to 0. -/

/-- The form state of the RepositoryAnalysis component read by `startAnalysis`. -/
structure AnalysisForm where
  githubUrl : String
  accessToken : String
  companyName : String
  reportFormat : String
  includeBenchmarks : Bool
  includeSuggestions : Bool
  selectedRepo : String
deriving DecidableEq

/-- Outcome of the awaited POST to `/api/report/generate`: resolve, or reject
with an optional `error.response.data.detail` payload. -/
inductive PostOutcome where
  | success : PostOutcome
  | failure : Option String → PostOutcome
deriving DecidableEq

/-- The JSON body posted to `/api/report/generate`.  `owner`/`repo` are
`Option` because destructuring `selectedRepo.split("/")` can leave the second
component `undefined`; `company_name` is `companyName || undefined`. -/
structure ReportRequest where
  owner : Option String
  repo : Option String
  access_token : String
  company_name : Option String
  include_benchmarks : Bool
  include_suggestions : Bool
  format : String
deriving DecidableEq

/-- Observable result of one `startAnalysis` invocation: the report-generation
requests issued, the final `error` state (`""` = no error), the final
`progress` value, and whether the run navigated to the reports page. -/
structure RunResult where
  requests : List ReportRequest
  error : String
  progress : ℚ
  navigate : Bool
deriving DecidableEq

/-- JavaScript `detail || fallback`: the fallback is used when `detail` is
absent or the empty string (both falsy). -/
def jsOr (detail : Option String) (fallback : String) : String :=
  match detail with
  | some d => if d = ("") then fallback else d
  | none => fallback

/-- The error message set when `parseGitHubUrl` returns `null`. -/
def urlErrorMsg : String :=
  "Invalid GitHub URL format. Please use a URL like https://github.com/owner/repo"

/-- The error message set when the access token is empty. -/
def tokenErrorMsg : String := "GitHub access token is required"

/-- The generic fallback used when a failed response carries no detail. -/
def analysisErrorMsg : String := "Error during analysis"

/-- Target resolution in `startAnalysis`: a non-empty `selectedRepo` is split
on `/` into owner and repo; otherwise the entered URL is parsed, `none`
signalling the invalid-URL early return. -/
def resolveTarget (form : AnalysisForm) : Option (Option String × Option String) :=
  if form.selectedRepo ≠ ("") then
    some ((form.selectedRepo.splitOn ("/")).head?, (form.selectedRepo.splitOn ("/"))[1]?)
  else
    match parseGitHubUrl form.githubUrl with
    | some (o, r) => some (some o, some r)
    | none => none

/-- `startAnalysis` as a function of the form state and the POST outcome. -/
def startAnalysis (form : AnalysisForm) (outcome : PostOutcome) : RunResult :=
  match resolveTarget form with
  | none => { requests := [], error := urlErrorMsg, progress := 0, navigate := false }
  | some (o, r) =>
    if form.accessToken = ("") then
      { requests := [], error := tokenErrorMsg, progress := 0, navigate := false }
    else
      let req : ReportRequest :=
        { owner := o
          repo := r
          access_token := form.accessToken
          company_name := if form.companyName = ("") then none else some form.companyName
          include_benchmarks := form.includeBenchmarks
          include_suggestions := form.includeSuggestions
          format := form.reportFormat }
      match outcome with
      | .success => { requests := [req], error := (""), progress := 100, navigate := true }
      | .failure detail =>
        { requests := [req], error := jsOr detail analysisErrorMsg
          progress := 0, navigate := false }

example :
    startAnalysis
      (AnalysisForm.mk ("https://github.com/o/r") ("tok") ("") ("html") true true (""))
      .success
    = { requests := [ReportRequest.mk (some ("o")) (some ("r")) ("tok") none true true ("html")]
        error := (""), progress := 100, navigate := true } := by decide

/-! ## Authentication context (`AuthProvider`: `login`, `logout`)

`login(token)` posts the token to `/api/github/connect`; only on a response
with `status === "connected"` does it write the token to
`localStorage["github_token"]`, set the token and user state, and return
`{success: true}`.  A non-connected response or a thrown error returns
`{success: false, message}` and touches neither the stored token nor the user.
`logout` removes the stored token and clears both state fields. -/

/-- The persistent and in-memory authentication state: the
`localStorage["github_token"]` entry, the `githubToken` state, and the `user`
state (represented by the username). -/
structure AuthState where
  storedToken : Option String
  githubToken : Option String
  user : Option String
deriving DecidableEq

/-- Outcome of the POST to `/api/github/connect`: a response with
`status === "connected"` and a username, any other response, or a thrown
error carrying an optional `error.response.data.detail`. -/
inductive ConnectResponse where
  | connected : String → ConnectResponse
  | notConnected : ConnectResponse
  | thrown : Option String → ConnectResponse
deriving DecidableEq

/-- The value returned by `login`. -/
structure LoginResult where
  success : Bool
  message : Option String
deriving DecidableEq

/-- `login` from the AuthProvider, as a function of the prior state, the
supplied token, and the connect response. -/
def login (st : AuthState) (token : String) (resp : ConnectResponse) :
    LoginResult × AuthState :=
  match resp with
  | .connected username =>
    ({ success := true, message := none },
     { storedToken := some token, githubToken := some token, user := some username })
  | .notConnected =>
    ({ success := false, message := some ("Failed to connect to GitHub") }, st)
  | .thrown detail =>
    ({ success := false, message := some (jsOr detail ("Invalid GitHub token")) }, st)

/-- `logout` from the AuthProvider: remove `localStorage["github_token"]` and
clear the token and user state. -/
def logout (_st : AuthState) : AuthState :=
  { storedToken := none, githubToken := none, user := none }

/-! ## Dashboard statistics (`fetchDashboardData`, Dashboard component)

The dashboard computes `totalReports` and `totalRepositories` as list lengths,
but `averageScore` and `techDebtHours` from `Math.random()` whenever at least
one report exists: `Math.floor(Math.random() * 30) + 60` and
`Math.floor(Math.random() * 200) + 50`.  The two random draws are made
explicit parameters `randScore, randHours ∈ [0, 1)`. -/

/-- The `stats` record set by the Dashboard component. -/
structure DashboardStats where
  totalReports : ℕ
  totalRepositories : ℕ
  averageScore : ℤ
  techDebtHours : ℤ
deriving DecidableEq

/-- The statistics computation in `fetchDashboardData`, with the two
`Math.random()` draws as explicit inputs. -/
def fetchDashboardData (reportsData repositories : List String)
    (randScore randHours : ℚ) : DashboardStats :=
  { totalReports := reportsData.length
    totalRepositories := repositories.length
    averageScore :=
      if reportsData.length > 0 then Int.floor (randScore * 30) + 60 else 0
    techDebtHours :=
      if reportsData.length > 0 then Int.floor (randHours * 200) + 50 else 0 }

example : (fetchDashboardData [("r")] [] 0 0).averageScore = 60 := by
  simp [fetchDashboardData]
example : (fetchDashboardData [("r")] [] (1/2) (1/2)).averageScore = 75 := by
  show (if (0 : ℕ) < 1 then Int.floor ((1/2 : ℚ) * 30) + 60 else 0) = 75
  rw [if_pos (by norm_num), show ((1/2 : ℚ) * 30) = ((15 : ℤ) : ℚ) by norm_num,
    Int.floor_intCast]
  norm_num

/-! ## Report template bindings (`report_template.html`)

The variable paths read by `{{ ... }}` / `{% ... %}` expressions of the
renderer template, in order of appearance. -/

/-- Every variable path the report template binds to by name. -/
def templateBindings : List String :=
  [ "repository_name", "generated_at", "company_name", "overall_score"
  , "code_quality.maintainability_index", "code_quality.test_coverage"
  , "tech_debt.debt_ratio", "code_quality.cyclomatic_complexity"
  , "code_quality.lines_of_code", "commit_frequency.daily_average"
  , "commit_frequency.weekly_average", "commit_frequency.contributors_count"
  , "tech_debt.estimated_hours", "recommendations" ]

/-! ## Progress bar (`progressInterval` in `startAnalysis`)

Every second the in-flight progress is updated by
`prev + (100 - prev) * 0.1`, capped at 95. -/

/-- One tick of the progress interval. -/
def progressTick (p : ℚ) : ℚ :=
  if p + (100 - p) * (1 / 10) ≥ 95 then 95 else p + (100 - p) * (1 / 10)

/-- Progress after `n` ticks, starting from the initial `setProgress(0)`. -/
def progressAfter : ℕ → ℚ
  | 0 => 0
  | n + 1 => progressTick (progressAfter n)

/-! ## Report format selection (Report Options card)

`reportFormat` is initialised by `useState("html")` and only ever set from the
`<Select>` whose options are `html`, `pdf`, `markdown`. -/

/-- The option values of the report-format `<Select>`. -/
def formatOptions : List String := [("html"), ("pdf"), ("markdown")]

/-- The `useState("html")` initial value of `reportFormat`. -/
def initialFormat : String := "html"

/-- The `reportFormat` state after a sequence of `<Select>` change events
(each `setReportFormat(e.target.value)` overwrites the state). -/
def formatAfter (selections : List String) : String :=
  selections.foldl (fun _ v => v) initialFormat

/-! ## Helper lemmas about the URL scanner -/

lemma dropMarker_append (pat : List Char) (t : List Char) :
    dropMarker pat (pat ++ t) = some t := by
  induction pat with
  | nil => rfl
  | cons p ps ih => simp [dropMarker, ih]

lemma dropMarker_sound (pat : List Char) :
    ∀ l t, dropMarker pat l = some t → l = pat ++ t := by
  induction pat with
  | nil => intro l t h; simp [dropMarker] at h; simp [h]
  | cons p ps ih =>
    intro l t h
    cases l with
    | nil => simp [dropMarker] at h
    | cons c cs =>
      by_cases hpc : p = c
      · subst hpc
        simp only [dropMarker, if_pos rfl] at h
        simpa using ih cs t h
      · simp [dropMarker, hpc] at h

lemma dropMarker_ghMarker_ne (c : Char) (cs : List Char) (h : 'g' ≠ c) :
    dropMarker ghMarker (c :: cs) = none := by
  show dropMarker ('g' :: ['i', 't', 'h', 'u', 'b', '.', 'c', 'o', 'm', '/']) (c :: cs) = none
  simp [dropMarker, h]

lemma scanGithub_cons (c : Char) (rest : List Char) :
    scanGithub (c :: rest) =
      match dropMarker ghMarker (c :: rest) with
      | some tail =>
        match matchTail tail with
        | some r => some r
        | none => scanGithub rest
      | none => scanGithub rest := by
  rw [scanGithub]

lemma scanGithub_cons_ne (c : Char) (rest : List Char) (hc : 'g' ≠ c) :
    scanGithub (c :: rest) = scanGithub rest := by
  rw [scanGithub_cons, dropMarker_ghMarker_ne c rest hc]

lemma scanGithub_https (t : List Char) :
    scanGithub ('h' :: 't' :: 't' :: 'p' :: 's' :: ':' :: '/' :: '/' :: t) = scanGithub t := by
  rw [scanGithub_cons_ne 'h' _ (by decide), scanGithub_cons_ne 't' _ (by decide),
    scanGithub_cons_ne 't' _ (by decide), scanGithub_cons_ne 'p' _ (by decide),
    scanGithub_cons_ne 's' _ (by decide), scanGithub_cons_ne ':' _ (by decide),
    scanGithub_cons_ne '/' _ (by decide), scanGithub_cons_ne '/' _ (by decide)]

lemma scanGithub_marker_hit (t : List Char) (pr : List Char × List Char)
    (h : matchTail t = some pr) :
    scanGithub ('g' :: 'i' :: 't' :: 'h' :: 'u' :: 'b' :: '.' :: 'c' :: 'o' :: 'm' :: '/' :: t)
      = some pr := by
  have hd : dropMarker ghMarker
      ('g' :: 'i' :: 't' :: 'h' :: 'u' :: 'b' :: '.' :: 'c' :: 'o' :: 'm' :: '/' :: t)
      = some t := dropMarker_append ghMarker t
  rw [scanGithub_cons, hd]
  simp [h]

lemma takeWhile_slashFree (o : List Char) (rest : List Char) (h : ∀ c ∈ o, c ≠ '/') :
    (o ++ '/' :: rest).takeWhile (fun c => c != '/') = o := by
  induction o with
  | nil => simp
  | cons c cs ih =>
    have hc : (c != '/') = true := by simpa using h c (by simp)
    simp only [List.cons_append, List.takeWhile_cons, hc, if_true]
    rw [ih (fun x hx => h x (by simp [hx]))]

lemma dropWhile_slashFree (o : List Char) (rest : List Char) (h : ∀ c ∈ o, c ≠ '/') :
    (o ++ '/' :: rest).dropWhile (fun c => c != '/') = '/' :: rest := by
  induction o with
  | nil => simp
  | cons c cs ih =>
    have hc : (c != '/') = true := by simpa using h c (by simp)
    simp only [List.cons_append, List.dropWhile_cons, hc, if_true]
    exact ih (fun x hx => h x (by simp [hx]))

lemma takeWhile_self_slashFree (l : List Char) (h : ∀ c ∈ l, c ≠ '/') :
    l.takeWhile (fun c => c != '/') = l := by
  induction l with
  | nil => rfl
  | cons c cs ih =>
    have hc : (c != '/') = true := by simpa using h c (by simp)
    simp only [List.takeWhile_cons, hc, if_true]
    rw [ih (fun x hx => h x (by simp [hx]))]

lemma matchTail_pos (o r : List Char) (ho : o ≠ []) (hr : r ≠ [])
    (hco : ∀ c ∈ o, c ≠ '/') (hcr : ∀ c ∈ r, c ≠ '/') :
    matchTail (o ++ '/' :: r) = some (o, r) := by
  simp only [matchTail, takeWhile_slashFree o r hco, dropWhile_slashFree o r hco,
    List.tail_cons, takeWhile_self_slashFree r hcr]
  simp [ho, hr]

lemma dropWhile_head_false {α : Type} (p : α → Bool) :
    ∀ (l : List α) x xs, l.dropWhile p = x :: xs → p x = false := by
  intro l
  induction l with
  | nil => intro x xs h; simp [List.dropWhile] at h
  | cons c cs ih =>
    intro x xs h
    rw [List.dropWhile_cons] at h
    by_cases hc : p c
    · rw [if_pos hc] at h; exact ih x xs h
    · rw [if_neg hc] at h
      injection h with h1 h2
      subst h1
      simpa using hc

lemma matchTail_sound (t : List Char) (o r : List Char) (h : matchTail t = some (o, r)) :
    ∃ post, t = o ++ '/' :: (r ++ post) ∧ o ≠ [] ∧ r ≠ []
      ∧ (∀ c ∈ o, c ≠ '/') ∧ (∀ c ∈ r, c ≠ '/') := by
  unfold matchTail at h
  cases hdw : t.dropWhile (fun c => c != '/') with
  | nil => rw [hdw] at h; exact absurd h (by simp)
  | cons x rest2 =>
    rw [hdw] at h
    simp only [List.tail_cons] at h
    by_cases hemp : t.takeWhile (fun c => c != '/') = [] ∨ rest2.takeWhile (fun c => c != '/') = []
    · rw [if_neg (by simp), if_pos hemp] at h; exact absurd h (by simp)
    · rw [if_neg (by simp), if_neg hemp] at h
      push_neg at hemp
      obtain ⟨ho, hr⟩ := hemp
      obtain ⟨ho2, hr2⟩ : t.takeWhile (fun c => c != '/') = o
          ∧ rest2.takeWhile (fun c => c != '/') = r := by simpa using h
      have hx : x = '/' := by
        have := dropWhile_head_false (fun c => c != '/') t x rest2 hdw
        simpa using this
      refine ⟨rest2.dropWhile (fun c => c != '/'), ?_, ?_, ?_, ?_, ?_⟩
      · conv_lhs => rw [← List.takeWhile_append_dropWhile (p := fun c => c != '/') (l := t)]
        rw [ho2, hdw, hx]
        congr 1
        rw [List.cons.injEq]
        refine ⟨rfl, ?_⟩
        conv_lhs => rw [← List.takeWhile_append_dropWhile (p := fun c => c != '/') (l := rest2)]
        rw [hr2]
      · rw [← ho2]; exact ho
      · rw [← hr2]; exact hr
      · intro c hc
        have := List.mem_takeWhile_imp (ho2 ▸ hc)
        simpa using this
      · intro c hc
        have := List.mem_takeWhile_imp (hr2 ▸ hc)
        simpa using this

/-- Soundness of the scanner: a successful scan exhibits an occurrence of the
full regex pattern inside the input. -/
lemma scanGithub_sound :
    ∀ (l : List Char) o r, scanGithub l = some (o, r) →
      ∃ pre post, l = pre ++ ghMarker ++ o ++ '/' :: (r ++ post) ∧ o ≠ [] ∧ r ≠ []
        ∧ (∀ c ∈ o, c ≠ '/') ∧ (∀ c ∈ r, c ≠ '/') := by
  intro l
  induction l with
  | nil => intro o r h; simp [scanGithub] at h
  | cons c rest ih =>
    intro o r h
    rw [scanGithub_cons] at h
    cases hdm : dropMarker ghMarker (c :: rest) with
    | none =>
      rw [hdm] at h
      obtain ⟨pre, post, hl, ho, hr, hco, hcr⟩ := ih o r h
      exact ⟨c :: pre, post, by simp [hl], ho, hr, hco, hcr⟩
    | some tail =>
      rw [hdm] at h
      replace h : (match matchTail tail with
          | some r => some r
          | none => scanGithub rest) = some (o, r) := h
      cases hmt : matchTail tail with
      | none =>
        rw [hmt] at h
        replace h : scanGithub rest = some (o, r) := h
        obtain ⟨pre, post, hl, ho, hr, hco, hcr⟩ := ih o r h
        exact ⟨c :: pre, post, by simp [hl], ho, hr, hco, hcr⟩
      | some pr =>
        rw [hmt] at h
        replace h : some pr = some (o, r) := h
        have hpr : pr = (o, r) := by simpa using h
        subst hpr
        obtain ⟨post, htail, ho, hr, hco, hcr⟩ := matchTail_sound tail o r hmt
        have hgl : c :: rest = ghMarker ++ tail := dropMarker_sound ghMarker _ _ hdm
        exact ⟨[], post, by simp [hgl, htail], ho, hr, hco, hcr⟩

example (o r : List Char) (ho : o ≠ []) (hr : r ≠ [])
    (hco : ∀ c ∈ o, c ≠ '/') (hcr : ∀ c ∈ r, c ≠ '/') :
    scanGithub
        ('h' :: 't' :: 't' :: 'p' :: 's' :: ':' :: '/' :: '/' ::
          ('g' :: 'i' :: 't' :: 'h' :: 'u' :: 'b' :: '.' :: 'c' :: 'o' :: 'm' :: '/' ::
            (o ++ '/' :: r)))
      = some (o, r) := by
  rw [scanGithub_https, scanGithub_marker_hit _ _ (matchTail_pos o r ho hr hco hcr)]

/-! ## Helper lemmas about `startAnalysis`, progress and format -/

lemma resolveTarget_none (form : AnalysisForm) (h1 : form.selectedRepo = (""))
    (h2 : parseGitHubUrl form.githubUrl = none) : resolveTarget form = none := by
  unfold resolveTarget
  rw [if_neg (by simp [h1]), h2]

lemma progressTick_le (p : ℚ) : progressTick p ≤ 95 := by
  unfold progressTick
  split <;> linarith

lemma progressTick_ge (p : ℚ) (h : p ≤ 95) : p ≤ progressTick p := by
  unfold progressTick
  split <;> linarith

lemma progressAfter_bounds (n : ℕ) : 0 ≤ progressAfter n ∧ progressAfter n ≤ 95 := by
  induction n with
  | zero => constructor <;> norm_num [progressAfter]
  | succ n ih =>
    exact ⟨le_trans ih.1 (progressTick_ge _ ih.2), progressTick_le _⟩

lemma foldl_select_mem (ss : List String) (init : String) (hinit : init ∈ formatOptions)
    (h : ∀ v ∈ ss, v ∈ formatOptions) : ss.foldl (fun _ v => v) init ∈ formatOptions := by
  induction ss generalizing init with
  | nil => simpa using hinit
  | cons a as ih =>
    simp only [List.foldl_cons]
    exact ih a (h a (by simp)) (fun v hv => h v (by simp [hv]))

lemma startAnalysis_requests_len (form : AnalysisForm) (outcome : PostOutcome) :
    (startAnalysis form outcome).requests.length ≤ 1 := by
  cases hrt : resolveTarget form with
  | none => simp [startAnalysis, hrt]
  | some pr =>
    obtain ⟨o, r⟩ := pr
    by_cases htok : form.accessToken = ("")
    · simp [startAnalysis, hrt, htok]
    · cases outcome with
      | success => simp [startAnalysis, hrt, htok]
      | failure d => simp [startAnalysis, hrt, htok]

lemma startAnalysis_requests_outcome (form : AnalysisForm) (d : Option String) :
    (startAnalysis form (.failure d)).requests = (startAnalysis form .success).requests := by
  cases hrt : resolveTarget form with
  | none => simp [startAnalysis, hrt]
  | some pr =>
    obtain ⟨o, r⟩ := pr
    by_cases htok : form.accessToken = ("")
    · simp [startAnalysis, hrt, htok]
    · simp [startAnalysis, hrt, htok]

lemma request_format_eq (form : AnalysisForm) (outcome : PostOutcome) (req : ReportRequest)
    (h : req ∈ (startAnalysis form outcome).requests) : req.format = form.reportFormat := by
  unfold startAnalysis at h
  cases hrt : resolveTarget form with
  | none => rw [hrt] at h; simp at h
  | some pr =>
    obtain ⟨o, r⟩ := pr
    rw [hrt] at h
    by_cases htok : form.accessToken = ("")
    · simp [htok] at h
    · cases outcome with
      | success => simp [htok] at h; rw [h]
      | failure d => simp [htok] at h; rw [h]


/-! ## Claim theorems -/

/-- C1: the claim demands that the dashboard's average health score and
estimated technical-debt hours be deterministic functions of the fetched
reports and repositories.  The code instead derives both from `Math.random()`
draws: with one fetched report, draws `0` and `1/2` give average scores `60`
and `75` and debt hours `50` and `150` — identical fetched data, different
statistics. -/
theorem fetchDashboardData_randomized :
    (fetchDashboardData [("r1")] [("repo1")] 0 0).averageScore = 60
    ∧ (fetchDashboardData [("r1")] [("repo1")] (1/2) (1/2)).averageScore = 75
    ∧ (fetchDashboardData [("r1")] [("repo1")] 0 0).techDebtHours = 50
    ∧ (fetchDashboardData [("r1")] [("repo1")] (1/2) (1/2)).techDebtHours = 150
    ∧ fetchDashboardData [("r1")] [("repo1")] 0 0
        ≠ fetchDashboardData [("r1")] [("repo1")] (1/2) (1/2) := by
  have h60 : (fetchDashboardData [("r1")] [("repo1")] 0 0).averageScore = 60 := by
    show (if (0 : ℕ) < 1 then Int.floor ((0 : ℚ) * 30) + 60 else 0) = 60
    rw [if_pos (by norm_num), show ((0 : ℚ) * 30) = (((0 : ℤ)) : ℚ) by norm_num,
      Int.floor_intCast]
    norm_num
  have h75 : (fetchDashboardData [("r1")] [("repo1")] (1/2) (1/2)).averageScore = 75 := by
    show (if (0 : ℕ) < 1 then Int.floor ((1/2 : ℚ) * 30) + 60 else 0) = 75
    rw [if_pos (by norm_num), show ((1/2 : ℚ) * 30) = (((15 : ℤ)) : ℚ) by norm_num,
      Int.floor_intCast]
    norm_num
  have h50 : (fetchDashboardData [("r1")] [("repo1")] 0 0).techDebtHours = 50 := by
    show (if (0 : ℕ) < 1 then Int.floor ((0 : ℚ) * 200) + 50 else 0) = 50
    rw [if_pos (by norm_num), show ((0 : ℚ) * 200) = (((0 : ℤ)) : ℚ) by norm_num,
      Int.floor_intCast]
    norm_num
  have h150 : (fetchDashboardData [("r1")] [("repo1")] (1/2) (1/2)).techDebtHours = 150 := by
    show (if (0 : ℕ) < 1 then Int.floor ((1/2 : ℚ) * 200) + 50 else 0) = 150
    rw [if_pos (by norm_num), show ((1/2 : ℚ) * 200) = (((100 : ℤ)) : ℚ) by norm_num,
      Int.floor_intCast]
    norm_num
  refine ⟨h60, h75, h50, h150, fun heq => ?_⟩
  have := congrArg DashboardStats.averageScore heq
  rw [h60, h75] at this
  norm_num at this

/-- C2 counterexample: the template does not bind the names
`quality.maintainability_index` or `debt.debt_ratio_pct` published in the
claim — it binds `code_quality.maintainability_index` and
`tech_debt.debt_ratio` instead. -/
theorem templateBindings_claim_counterexample :
    ("quality.maintainability_index" ∉ templateBindings)
    ∧ ("debt.debt_ratio_pct" ∉ templateBindings)
    ∧ ("code_quality.maintainability_index" ∈ templateBindings)
    ∧ ("tech_debt.debt_ratio" ∈ templateBindings) := by decide

/-- C2 amended: the renderer template reads exactly the names
`overall_score`, `code_quality.maintainability_index`, `tech_debt.debt_ratio`,
`commit_frequency.daily_average` and `recommendations` (not
`quality.maintainability_index` / `debt.debt_ratio_pct`). -/
theorem templateBindings_amended :
    ("overall_score" ∈ templateBindings)
    ∧ ("code_quality.maintainability_index" ∈ templateBindings)
    ∧ ("tech_debt.debt_ratio" ∈ templateBindings)
    ∧ ("commit_frequency.daily_average" ∈ templateBindings)
    ∧ ("recommendations" ∈ templateBindings) := by decide

/-- C3: whenever no repository is selected and the entered URL does not parse,
or the access token is empty, `startAnalysis` issues no report-generation
request, sets a non-empty error message, and performs no partial work
(progress stays 0, no navigation). -/
theorem startAnalysis_input_validation (form : AnalysisForm) (outcome : PostOutcome)
    (h : (form.selectedRepo = ("") ∧ parseGitHubUrl form.githubUrl = none)
      ∨ form.accessToken = ("")) :
    (startAnalysis form outcome).requests = []
    ∧ (startAnalysis form outcome).error ≠ ("")
    ∧ (startAnalysis form outcome).progress = 0
    ∧ (startAnalysis form outcome).navigate = false := by
  rcases h with ⟨h1, h2⟩ | htok
  · have hrt : resolveTarget form = none := resolveTarget_none form h1 h2
    refine ⟨?_, ?_, ?_, ?_⟩ <;> simp [startAnalysis, hrt, urlErrorMsg]
  · cases hrt : resolveTarget form with
    | none => refine ⟨?_, ?_, ?_, ?_⟩ <;> simp [startAnalysis, hrt, urlErrorMsg]
    | some pr =>
      obtain ⟨o, r⟩ := pr
      refine ⟨?_, ?_, ?_, ?_⟩ <;> simp [startAnalysis, hrt, htok, tokenErrorMsg]

/-- C3 witness: the empty form (no selected repository, empty URL, empty
token) is rejected with an error and no request. -/
theorem startAnalysis_input_validation_witness :
    (startAnalysis (AnalysisForm.mk ("") ("") ("") ("html") true true ("")) .success).requests
        = []
    ∧ (startAnalysis (AnalysisForm.mk ("") ("") ("") ("html") true true ("")) .success).error
        ≠ ("")
    ∧ (startAnalysis (AnalysisForm.mk ("") ("") ("") ("html") true true ("")) .success).progress
        = 0
    ∧ (startAnalysis (AnalysisForm.mk ("") ("") ("") ("html") true true ("")) .success).navigate
        = false :=
  startAnalysis_input_validation _ _ (Or.inl ⟨rfl, rfl⟩)

/-- C4 counterexample: the claim that the supplied GitHub access token is not
written to any persistent store is false — a successful login writes the token
to `localStorage["github_token"]`. -/
theorem login_stores_token_counterexample :
    (login (AuthState.mk none none none) ("tok") (.connected ("alice"))).2.storedToken
      = some ("tok")
    ∧ (some ("tok") : Option String) ≠ none := by decide

/-- C4 amended: a successful login persists the token in the browser's
`localStorage` (client-side only); a failed login leaves the stored state
unchanged; and after every logout no stored token remains. -/
theorem login_logout_storage :
    (∀ st token username,
      (login st token (.connected username)).2.storedToken = some token)
    ∧ (∀ st token, (login st token .notConnected).2 = st)
    ∧ (∀ st token detail, (login st token (.thrown detail)).2 = st)
    ∧ (∀ st, (logout st).storedToken = none ∧ (logout st).githubToken = none
        ∧ (logout st).user = none) :=
  ⟨fun _ _ _ => rfl, fun _ _ => rfl, fun _ _ _ => rfl, fun _ => ⟨rfl, rfl, rfl⟩⟩

/-- C5: for every failed report-generation request actually issued, the
response's non-empty `detail` is surfaced unchanged as the error, the generic
fallback is used exactly when no detail is carried, progress is reset to 0,
and the run does not navigate to the reports page. -/
theorem startAnalysis_error_surfaced (form : AnalysisForm) (d : String)
    (hd : d ≠ (""))
    (hreq : (startAnalysis form (.failure (some d))).requests ≠ []) :
    (startAnalysis form (.failure (some d))).error = d
    ∧ (startAnalysis form (.failure none)).error = analysisErrorMsg
    ∧ (startAnalysis form (.failure (some d))).progress = 0
    ∧ (startAnalysis form (.failure (some d))).navigate = false
    ∧ (startAnalysis form (.failure none)).progress = 0
    ∧ (startAnalysis form (.failure none)).navigate = false := by
  cases hrt : resolveTarget form with
  | none =>
    exact absurd (by simp [startAnalysis, hrt]) hreq
  | some pr =>
    obtain ⟨o, r⟩ := pr
    by_cases htok : form.accessToken = ("")
    · exact absurd (by simp [startAnalysis, hrt, htok]) hreq
    · refine ⟨?_, ?_, ?_, ?_, ?_, ?_⟩ <;> simp [startAnalysis, hrt, htok, jsOr, hd]

/-- C5 witness: with a valid URL and token, a failure response carrying the
detail string "Rate limit exceeded" is surfaced verbatim. -/
theorem startAnalysis_error_surfaced_witness :
    (startAnalysis (AnalysisForm.mk ("https://github.com/o/r") ("tok") ("") ("html") true true (""))
        (.failure (some ("Rate limit exceeded")))).error = ("Rate limit exceeded")
    ∧ (startAnalysis (AnalysisForm.mk ("https://github.com/o/r") ("tok") ("") ("html") true true (""))
        (.failure none)).error = analysisErrorMsg
    ∧ (startAnalysis (AnalysisForm.mk ("https://github.com/o/r") ("tok") ("") ("html") true true (""))
        (.failure (some ("Rate limit exceeded")))).progress = 0
    ∧ (startAnalysis (AnalysisForm.mk ("https://github.com/o/r") ("tok") ("") ("html") true true (""))
        (.failure (some ("Rate limit exceeded")))).navigate = false
    ∧ (startAnalysis (AnalysisForm.mk ("https://github.com/o/r") ("tok") ("") ("html") true true (""))
        (.failure none)).progress = 0
    ∧ (startAnalysis (AnalysisForm.mk ("https://github.com/o/r") ("tok") ("") ("html") true true (""))
        (.failure none)).navigate = false :=
  startAnalysis_error_surfaced _ _ (by decide) (by decide)

/-- C6: every invocation of `startAnalysis` issues at most one
report-generation request, and a failing outcome issues exactly the same
requests as a succeeding one — the request is never reissued on error. -/
theorem startAnalysis_no_retry :
    ∀ (form : AnalysisForm) (outcome : PostOutcome),
      (startAnalysis form outcome).requests.length ≤ 1
      ∧ (∀ d, (startAnalysis form (.failure d)).requests
          = (startAnalysis form .success).requests) :=
  fun form outcome =>
    ⟨startAnalysis_requests_len form outcome, fun d => startAnalysis_requests_outcome form d⟩

/-- C7: if `reportFormat` was produced from the initial `"html"` state by
`<Select>` change events whose values lie in the option set, then every issued
request carries a format in {html, pdf, markdown}; with no selection the
format is the default `"html"`. -/
theorem reportFormat_domain (selections : List String) (form : AnalysisForm)
    (outcome : PostOutcome) (req : ReportRequest)
    (hsel : ∀ v ∈ selections, v ∈ formatOptions)
    (hform : form.reportFormat = formatAfter selections)
    (hreq : req ∈ (startAnalysis form outcome).requests) :
    req.format ∈ formatOptions
    ∧ formatAfter [] = initialFormat
    ∧ initialFormat = ("html") := by
  refine ⟨?_, rfl, rfl⟩
  rw [request_format_eq form outcome req hreq, hform]
  exact foldl_select_mem selections initialFormat (by decide) hsel

/-- C7 witness: selecting "pdf" and starting an analysis issues a request
whose format is in the option set. -/
theorem reportFormat_domain_witness :
    (ReportRequest.mk (some ("o")) (some ("r")) ("tok") none true true ("pdf")).format
        ∈ formatOptions
    ∧ formatAfter [] = initialFormat
    ∧ initialFormat = ("html") :=
  reportFormat_domain [("pdf")]
    (AnalysisForm.mk ("https://github.com/o/r") ("tok") ("") ("pdf") true true ("")) .success
    (ReportRequest.mk (some ("o")) (some ("r")) ("tok") none true true ("pdf"))
    (by decide) (by decide) (by decide)

/-- C8: `login` stores the token and sets the user exactly on a "connected"
response, returning success; any other response or a thrown error returns
failure with a message and leaves the state unchanged. -/
theorem login_atomicity :
    (∀ st token username,
      login st token (.connected username)
        = ({ success := true, message := none },
           { storedToken := some token, githubToken := some token,
             user := some username }))
    ∧ (∀ st token, (login st token .notConnected).1.success = false
        ∧ (login st token .notConnected).1.message = some ("Failed to connect to GitHub")
        ∧ (login st token .notConnected).2 = st)
    ∧ (∀ st token detail, (login st token (.thrown detail)).1.success = false
        ∧ (login st token (.thrown detail)).1.message
            = some (jsOr detail ("Invalid GitHub token"))
        ∧ (login st token (.thrown detail)).2 = st) :=
  ⟨fun _ _ _ => rfl, fun _ _ => ⟨rfl, rfl, rfl⟩, fun _ _ _ => ⟨rfl, rfl, rfl⟩⟩

/-- C9: starting from 0, the periodic update `p + (100 - p) * 0.1` capped at
95 is non-decreasing and keeps progress within [0, 95] for every tick;
progress is 100 exactly when a request was issued and succeeded, and is 0 on
every failure. -/
theorem progress_invariant :
    (∀ n : ℕ, 0 ≤ progressAfter n ∧ progressAfter n ≤ 95
      ∧ progressAfter n ≤ progressAfter (n + 1))
    ∧ (∀ (form : AnalysisForm) (outcome : PostOutcome),
        (startAnalysis form outcome).progress = 100
          ↔ (startAnalysis form outcome).requests ≠ [] ∧ outcome = .success)
    ∧ (∀ (form : AnalysisForm) (d : Option String),
        (startAnalysis form (.failure d)).progress = 0) := by
  refine ⟨?_, ?_, ?_⟩
  · intro n
    obtain ⟨h0, h95⟩ := progressAfter_bounds n
    exact ⟨h0, h95, progressTick_ge _ h95⟩
  · intro form outcome
    cases hrt : resolveTarget form with
    | none => simp [startAnalysis, hrt]
    | some pr =>
      obtain ⟨o, r⟩ := pr
      by_cases htok : form.accessToken = ("")
      · simp [startAnalysis, hrt, htok]
      · cases outcome with
        | success => simp [startAnalysis, hrt, htok]
        | failure d => simp [startAnalysis, hrt, htok]
  · intro form d
    cases hrt : resolveTarget form with
    | none => simp [startAnalysis, hrt]
    | some pr =>
      obtain ⟨o, r⟩ := pr
      by_cases htok : form.accessToken = ("")
      · simp [startAnalysis, hrt, htok]
      · simp [startAnalysis, hrt, htok]

/-- C10 counterexample: the claim quantifies over every URL containing
`github.com/<owner>/<repo>`, but the parser commits to the first position
where the pattern matches.  The URL `https://github.com/x/github.com/a/b`
contains `github.com/a/b` (with `a`, `b` slash-free segments), yet parsing
returns `("x", "github.com")`, not `("a", "b")`. -/
theorem parseGitHubUrl_claim_counterexample :
    parseGitHubUrl ("https://github.com/x/github.com/a/b") = some (("x"), ("github.com"))
    ∧ ("https://github.com/x/") ++ ("github.com/a/b") = ("https://github.com/x/github.com/a/b")
    ∧ (some (("x"), ("github.com")) : Option (String × String)) ≠ some (("a"), ("b")) := by
  refine ⟨by decide, by decide, by decide⟩

/-- C10 amended: `parseGitHubUrl` returns the first regex match: on a URL of
the form `https://github.com/<owner>/<repo>` with slash-free nonempty
segments it returns the owner unchanged and the repo with only the first
occurrence of ".git" removed; and it returns `none` on every string in which
the pattern `github.com/<owner>/<repo>` occurs nowhere. -/
theorem parseGitHubUrl_first_match
    (owner repo : List Char) (ho : owner ≠ []) (hr : repo ≠ [])
    (hco : ∀ c ∈ owner, c ≠ '/') (hcr : ∀ c ∈ repo, c ≠ '/') :
    (parseGitHubUrl (String.mk
        ('h' :: 't' :: 't' :: 'p' :: 's' :: ':' :: '/' :: '/' ::
          ('g' :: 'i' :: 't' :: 'h' :: 'u' :: 'b' :: '.' :: 'c' :: 'o' :: 'm' :: '/' ::
            (owner ++ '/' :: repo))))
      = some (String.mk owner, String.mk (removeFirst dotGit repo)))
    ∧ (∀ url : String,
        (¬ ∃ pre o r post, url.toList = pre ++ ghMarker ++ o ++ '/' :: (r ++ post)
          ∧ o ≠ [] ∧ r ≠ [] ∧ (∀ c ∈ o, c ≠ '/') ∧ (∀ c ∈ r, c ≠ '/'))
        → parseGitHubUrl url = none) := by
  constructor
  · have hscan : scanGithub (String.mk
        ('h' :: 't' :: 't' :: 'p' :: 's' :: ':' :: '/' :: '/' ::
          ('g' :: 'i' :: 't' :: 'h' :: 'u' :: 'b' :: '.' :: 'c' :: 'o' :: 'm' :: '/' ::
            (owner ++ '/' :: repo)))).toList = some (owner, repo) := by
      show scanGithub
          ('h' :: 't' :: 't' :: 'p' :: 's' :: ':' :: '/' :: '/' ::
            ('g' :: 'i' :: 't' :: 'h' :: 'u' :: 'b' :: '.' :: 'c' :: 'o' :: 'm' :: '/' ::
              (owner ++ '/' :: repo))) = some (owner, repo)
      rw [scanGithub_https, scanGithub_marker_hit _ _ (matchTail_pos owner repo ho hr hco hcr)]
    unfold parseGitHubUrl
    rw [hscan]
  · intro url hnone
    cases hp : parseGitHubUrl url with
    | none => rfl
    | some s =>
      exfalso
      unfold parseGitHubUrl at hp
      cases hs : scanGithub url.toList with
      | none => rw [hs] at hp; exact absurd hp (by simp)
      | some pr =>
        obtain ⟨o, r⟩ := pr
        obtain ⟨pre, post, hl, ho', hr', hco', hcr'⟩ := scanGithub_sound url.toList o r hs
        exact hnone ⟨pre, o, r, post, hl, ho', hr', hco', hcr'⟩

/-- C10 witness: parsing `https://github.com/o/my.github.io` yields owner "o"
and repo "myhub.io" — the first ".git" occurrence is removed from the repo
segment. -/
theorem parseGitHubUrl_first_match_witness :
    (parseGitHubUrl (String.mk
        ('h' :: 't' :: 't' :: 'p' :: 's' :: ':' :: '/' :: '/' ::
          ('g' :: 'i' :: 't' :: 'h' :: 'u' :: 'b' :: '.' :: 'c' :: 'o' :: 'm' :: '/' ::
            (['o'] ++ '/' :: ['m', 'y', '.', 'g', 'i', 't', 'h', 'u', 'b', '.', 'i', 'o']))))
      = some (String.mk ['o'],
          String.mk (removeFirst dotGit ['m', 'y', '.', 'g', 'i', 't', 'h', 'u', 'b', '.', 'i', 'o'])))
    ∧ String.mk (removeFirst dotGit ['m', 'y', '.', 'g', 'i', 't', 'h', 'u', 'b', '.', 'i', 'o'])
        = ("myhub.io") :=
  ⟨(parseGitHubUrl_first_match ['o'] _ (by decide) (by decide) (by decide) (by decide)).1,
    by decide⟩
